import Mathlib

/-!
# Verification of the fastlvm cover-tree wrapper and its query engine

Shallow embedding of `src/fastlvm/covertree.py` and `src/fastlvm/kmeans.py`.
The native index (`covertreec`, `kmeansc`) is not part of the visible source;
where a claim depends on it, the relevant operation is modelled from the spec
(each such definition is marked `Modelled from the spec:`).  The Python wrapper
code itself (label fallback, anomaly counting, fit/produce lifecycle, attribute
access) is embedded directly from the source.
-/

namespace Fastlvm

/-! ## Points and squared Euclidean distance -/

/-- A point: a fixed-length vector of rational coordinates (the model of a
dense numeric feature vector). -/
abbrev Point := List ℚ

/-- Squared Euclidean distance between two points (squared form: the argmin
and all comparisons between distances are unchanged by squaring). -/
def sqDist (p q : Point) : ℚ :=
  (List.zipWith (fun a b => (a - b) * (a - b)) p q).sum

/-! ## Label fallback from `produce` (covertree.py lines 162-194) -/

/-- `to_label` from `covertree.py` (k = 1 case): an identity `i` is kept if it
is in range `[0, N)` and replaced by `0` otherwise.  `N = len(_y)` is the
number of training points. -/
def to_label (N : ℕ) (i : ℕ) : ℕ :=
  if i < N then i else 0

/-- `to_labels` from `covertree.py` (k > 1 case): each in-range identity of the
row is kept; each out-of-range identity is replaced by the first in-range
identity found in the same row, and contributes nothing when the row holds no
in-range identity (the entry is dropped, shortening the row). -/
def to_labels (N : ℕ) (row : List ℕ) : List ℕ :=
  row.flatMap fun i =>
    if i < N then [i]
    else
      match row.find? (fun j => decide (j < N)) with
      | some j => [j]
      | none => []

/-! ## Anomaly counting and warning cap from `produce`
(covertree.py lines 92-93, 154, 162-206) -/

/-- `_INDEX_OUT_OF_BOUND_COUNT_MAX` from `covertree.py` line 92. -/
def INDEX_OUT_OF_BOUND_COUNT_MAX : ℕ := 3

/-- State of the anomaly bookkeeping inside one `produce` call: the running
value of `_index_out_of_bound_count` and the number of individual warnings
emitted so far. -/
structure WarnState where
  count : ℕ
  warnings : ℕ
  deriving DecidableEq, Repr

/-- Processing one result identity: an out-of-range identity increments the
counter, and logs an individual warning exactly when the counter before the
increment is below the cap (`covertree.py` lines 162-173 and 176-193). -/
def anomStep (s : WarnState) (isAnom : Bool) : WarnState :=
  if isAnom then
    { count := s.count + 1,
      warnings := s.warnings + (if s.count < INDEX_OUT_OF_BOUND_COUNT_MAX then 1 else 0) }
  else s

/-- The anomaly bookkeeping over a whole batch, in processing order, starting
from the reset state of `covertree.py` line 154. -/
def runAnoms (flags : List Bool) : WarnState :=
  flags.foldl anomStep ⟨0, 0⟩

/-- The end-of-call summary warning (`covertree.py` lines 204-206): if the
final counter reached the cap, one summary warning is logged carrying the
number `1 + count - MAX`; otherwise none is logged. -/
def summaryWarn (count : ℕ) : Option ℕ :=
  if INDEX_OUT_OF_BOUND_COUNT_MAX ≤ count then
    some (1 + count - INDEX_OUT_OF_BOUND_COUNT_MAX)
  else none

/-! ## The cover-tree index, modelled from the spec

The native index `covertreec` is absent from the visible source; the spec
(sections 3, 4.1, 4.2) describes its data model and the exact-mode semantics
of its queries, which we model here. -/

/-- Modelled from the spec: a tree node owns one point (by identity), an
integer level, and an ordered collection of children (spec section 3,
"Tree Node"). -/
inductive CNode where
  | mk (pid : ℕ) (level : ℤ) (children : List CNode)

/-- Modelled from the spec: a built cover tree: the immutable point store it
was built over, the root node, and the truncation parameter (spec section 3). -/
structure CTree where
  pts : List Point
  root : CNode
  trunc : ℤ

/-- The query candidates of a tree for one query point: each stored point's
squared distance to the query paired with its identity, ordered
lexicographically (distance first, lower identity breaking ties, the
deterministic tie-break the spec requires in section 4.2). -/
def candidates (pts : List Point) (q : Point) : List (ℚ ×ₗ ℕ) :=
  pts.enum.map fun ip => toLex (sqDist ip.2 q, ip.1)

/-- Modelled from the spec: `NearestNeighbour` in exact mode (truncation = -1)
returns the true nearest stored point — the candidate minimal in the
(distance, identity) order — as a single best kept while scanning
(spec section 4.2). -/
def nearestQ (t : CTree) (q : Point) : ℚ ×ₗ ℕ :=
  match candidates t.pts q with
  | [] => toLex (0, 0)
  | c :: cs => cs.foldl min c

/-- Modelled from the spec: `kNearestNeighbours` returns the k best candidates
ascending by distance with ties broken by lower identity (spec section 4.2). -/
def kNearestQ (t : CTree) (q : Point) (k : ℕ) : List (ℚ ×ₗ ℕ) :=
  (List.insertionSort (fun a b => a ≤ b) (candidates t.pts q)).take k

/-! ## Errors and construction -/

/-- The error outcomes visible across the embedded code: Python exceptions of
the wrapper (`ValueError`, `TypeError`, `AttributeError`) and the error kinds
of the spec's core contract (`InvalidInput`, `CorruptData`). -/
inductive PyErr where
  | valueError (msg : String)
  | typeError
  | attributeError
  | invalidInput
  | corruptData
  deriving DecidableEq

/-- All points have the same dimension. -/
def sameDims : List Point → Bool
  | [] => true
  | p :: ps => ps.all fun x => x.length == p.length

/-- Modelled from the spec: `Construct(points, truncation)` — the native
`covertreec.new`, absent from the source — fails with `InvalidInput` if points
is empty or vectors have inconsistent dimension (spec section 4.1); otherwise
it returns a fresh tree over exactly these points.  The internal node
arrangement is abstracted (root holds point 0, every other point a leaf
child): no claim in scope depends on the node layout, only on the point store
and the truncation the tree carries. -/
def ctNew (pts : List Point) (trunc : ℤ) : Except PyErr CTree :=
  if pts.isEmpty || !sameDims pts then .error .invalidInput
  else .ok { pts := pts,
             root := .mk 0 0 (((List.range pts.length).drop 1).map fun i => .mk i (-1) []),
             trunc := trunc }

/-- The point store of the spec's concrete example: 5 one-dimensional points
at coordinates 0, 1, 2, 3, 100. -/
def pts5 : List Point := [[0], [1], [2], [3], [100]]

/-- The tree built over `pts5` in exact mode (truncation = -1). -/
def exTree5 : CTree :=
  { pts := pts5,
    root := .mk 0 0 [.mk 1 (-1) [], .mk 2 (-1) [], .mk 3 (-1) [], .mk 4 (-1) []],
    trunc := -1 }

/-- `r` is a true nearest answer for query `q` over stored points `pts`: its
identity addresses a stored point, its distance is that point's squared
distance to the query, and no stored point is closer. -/
def IsTrueNearest (pts : List Point) (q : Point) (r : ℚ ×ₗ ℕ) : Prop :=
  (∃ p, pts[(ofLex r).2]? = some p ∧ (ofLex r).1 = sqDist p q) ∧
  ∀ (j : ℕ) (p : Point), pts[j]? = some p → (ofLex r).1 ≤ sqDist p q

/-! ## Serializer, modelled from the spec

The native `covertreec.serialize` / `covertreec.deserialize` (wrapped by
`get_params` / `set_params` in `covertree.py` lines 213-238) are absent from
the source.  Modelled from the spec, section 4.1: a flat buffer capturing a
length-prefixed encoding of the point store followed by a preorder traversal
of node levels and point identities, validated structurally on read. -/

/-- A token of the flat serialized buffer (the model of the byte stream). -/
inductive Tok where
  | tn (v : ℕ)
  | ti (v : ℤ)
  | tq (v : ℚ)
  deriving DecidableEq

/-- Total node count of a forest (used as the parser's fuel bound). -/
def sizeC : List CNode → ℕ
  | [] => 0
  | .mk _ _ cc :: cs => 1 + sizeC cc + sizeC cs

/-- Modelled from the spec: preorder serialization of a forest of nodes: each
node emits its point identity, its level and its child count, then its
children, then its right siblings. -/
def serForest : List CNode → List Tok
  | [] => []
  | .mk p l cc :: cs =>
    Tok.tn p :: Tok.ti l :: Tok.tn cc.length :: (serForest cc ++ serForest cs)

/-- Modelled from the spec: parser for a forest of `cnt` nodes, with explicit
fuel; fails on any structurally invalid buffer. -/
def parseForest : ℕ → ℕ → List Tok → Option (List CNode × List Tok)
  | _, 0, ts => some ([], ts)
  | 0, _ + 1, _ => none
  | fuel + 1, cnt + 1, Tok.tn p :: Tok.ti l :: Tok.tn c :: rest =>
    match parseForest fuel c rest with
    | some (cc, rest') =>
      match parseForest fuel cnt rest' with
      | some (cs, rest'') => some (CNode.mk p l cc :: cs, rest'')
      | none => none
    | none => none
  | _ + 1, _ + 1, _ => none

/-- Serialization of one point: dimension, then its coordinates. -/
def serPoint (p : Point) : List Tok :=
  Tok.tn p.length :: p.map Tok.tq

/-- Parser for `n` rational coordinate tokens. -/
def parseRats : ℕ → List Tok → Option (List ℚ × List Tok)
  | 0, ts => some ([], ts)
  | n + 1, Tok.tq v :: ts =>
    match parseRats n ts with
    | some (qs, rest) => some (v :: qs, rest)
    | none => none
  | _ + 1, _ => none

/-- Parser for one length-prefixed point. -/
def parsePoint : List Tok → Option (Point × List Tok)
  | Tok.tn d :: rest => parseRats d rest
  | _ => none

/-- Parser for `n` points. -/
def parsePts : ℕ → List Tok → Option (List Point × List Tok)
  | 0, ts => some ([], ts)
  | n + 1, ts =>
    match parsePoint ts with
    | some (p, rest) =>
      match parsePts n rest with
      | some (ps, rest') => some (p :: ps, rest')
      | none => none
    | none => none

/-- Modelled from the spec: `Serialize()` — the full buffer: the point store
(count-prefixed), the node count (the parser's fuel), the truncation
parameter, and the preorder node traversal. -/
def serialize (t : CTree) : List Tok :=
  Tok.tn t.pts.length :: (t.pts.flatMap serPoint ++
    (Tok.tn (sizeC [t.root]) :: Tok.ti t.trunc :: serForest [t.root]))

/-- Modelled from the spec: `Deserialize(buffer)` — parses the buffer back
into a tree, failing (`CorruptData`, here `none`) whenever the structural
validation fails, including trailing garbage or a forest that is not exactly
one root. -/
def deserialize (ts : List Tok) : Option CTree :=
  match ts with
  | Tok.tn np :: rest =>
    match parsePts np rest with
    | some (ps, Tok.tn fuel :: Tok.ti tr :: rest') =>
      match parseForest fuel 1 rest' with
      | some ([root], []) => some { pts := ps, root := root, trunc := tr }
      | _ => none
    | _ => none
  | _ => none

/-! ## The CoverTree primitive's state machine (covertree.py) -/

/-- The mutable fields of a `CoverTree` instance: the native tree handle
`_this`, the hyperparameters `_trunc` and `_k`, the training inputs, the
`_fitted` flag and the anomaly counter `_index_out_of_bound_count`
(`covertree.py` lines 83-93). -/
structure CTState where
  this : Option CTree
  trunc : ℤ
  k : ℕ
  training : Option (List Point)
  fitted : Bool
  counter : ℕ

/-- `__init__` (covertree.py lines 83-93): no tree handle, no training data,
not fitted, anomaly counter 0. -/
def initState (trunc : ℤ) (k : ℕ) : CTState :=
  { this := none, trunc := trunc, k := k, training := none, fitted := false,
    counter := 0 }

/-- `set_training_data` (lines 99-110): stores the inputs and clears the
fitted flag. -/
def setTrainingData (s : CTState) (inputs : List Point) : CTState :=
  { s with training := some inputs, fitted := false }

/-- `fit` (lines 112-125), returning the possibly-updated state together with
the outcome.  On the already-fitted path Python executes a bare `return`
(modelled `.ok false`); a successful build returns `base.CallResult(None)`
(modelled `.ok true`); an exception leaves every field as it was, since the
assignments to `_this` and `_fitted` come after the points where `fit` can
raise. -/
def fitM (s : CTState) : CTState × Except PyErr Bool :=
  if s.fitted then (s, .ok false)
  else
    match s.training with
    | none => (s, .error (.valueError "Missing training data."))
    | some tr =>
      match ctNew tr s.trunc with
      | .error e => (s, .error e)
      | .ok t => ({ s with this := some t, fitted := true }, .ok true)

/-- The value `produce` returns: a flat label list in the k = 1 branch, label
rows in the k > 1 branch (`covertree.py` lines 196-202). -/
inductive POut where
  | single (labels : List ℕ)
  | rows (labelRows : List (List ℕ))

/-- `produce` (lines 139-211): the anomaly counter is reset to 0 first (line
154), then a missing tree handle raises `ValueError('Fit model first')`
(lines 156-157); with a handle, the k = 1 branch maps `NearestNeighbour`
results through `to_label` and the k > 1 branch maps `kNearestNeighbours`
rows through `to_labels`, counting out-of-range identities in processing
order.  Accessing `len(_y)` with no training inputs stored raises a
`TypeError` (`len(None)`). -/
def produceM (s : CTState) (inputs : List Point) : CTState × Except PyErr POut :=
  let s0 := { s with counter := 0 }
  match s.this with
  | none => (s0, .error (.valueError "Fit model first"))
  | some t =>
    match s.training with
    | none => (s0, .error .typeError)
    | some tr =>
      let N := tr.length
      if s.k = 1 then
        let ids := inputs.map fun q => (ofLex (nearestQ t q)).2
        let flags := ids.map fun i => decide (¬ i < N)
        ({ s0 with counter := (runAnoms flags).count },
          .ok (.single (ids.map (to_label N))))
      else
        let rows := inputs.map fun q => (kNearestQ t q s.k).map fun c => (ofLex c).2
        let flags := rows.flatMap fun r => r.map fun i => decide (¬ i < N)
        ({ s0 with counter := (runAnoms flags).count },
          .ok (.rows (rows.map (to_labels N))))

/-- `set_params` (lines 227-238): replaces the tree handle by the
deserialized tree; when deserialization fails the assignment never happens
(deserialize is atomic per spec section 7). -/
def setParamsM (s : CTState) (buf : List Tok) : CTState × Except PyErr Unit :=
  match deserialize buf with
  | some t => ({ s with this := some t }, .ok ())
  | none => (s, .error .corruptData)

/-- The states a `CoverTree` instance can actually be in: reachable from
`__init__` through the methods that mutate instance state. -/
inductive Reachable : CTState → Prop
  | init (trunc : ℤ) (k : ℕ) : Reachable (initState trunc k)
  | setTraining {s : CTState} (inputs : List Point) :
      Reachable s → Reachable (setTrainingData s inputs)
  | fit {s : CTState} : Reachable s → Reachable (fitM s).1
  | produce {s : CTState} (inputs : List Point) :
      Reachable s → Reachable (produceM s inputs).1
  | setParams {s : CTState} (buf : List Tok) :
      Reachable s → Reachable (setParamsM s buf).1

/-- A concrete fitted state: the result of fitting the 5-point training set. -/
def exFitted : CTState :=
  { this := some exTree5, trunc := -1, k := 3, training := some pts5,
    fitted := true, counter := 0 }

/-! ## Attribute lookup (`get_call_metadata`) -/

/-- The instance attributes assigned anywhere in `covertree.py` on a
`CoverTree` instance: the `self.X = ...` targets of `__init__`,
`set_training_data`, `fit`, `produce` and `set_params`. -/
def coverTreeAttrs : List String :=
  ["_this", "_trunc", "_k", "_training_inputs", "_fitted", "hyperparams",
   "_INDEX_OUT_OF_BOUND_COUNT_MAX", "_index_out_of_bound_count"]

/-- The instance attributes assigned anywhere in `kmeans.py` on a `KMeans`
instance. -/
def kmeansAttrs : List String :=
  ["_this", "_k", "_iters", "_initialization", "_training_inputs",
   "_validation_inputs", "_fitted", "hyperparams"]

/-- Python attribute lookup: reading `self.nm` succeeds exactly when `nm` was
assigned on the instance, and raises `AttributeError` otherwise. -/
def getAttr (attrs : List String) (nm : String) : Except PyErr Unit :=
  if nm ∈ attrs then .ok () else .error .attributeError

/-- `get_call_metadata` (`covertree.py` lines 127-137, `kmeans.py` lines
166-176): its body is `return self.fitted` — an attribute read of `fitted`. -/
def get_call_metadata (attrs : List String) : Except PyErr Unit :=
  getAttr attrs "fitted"

/-! ## `spreadout` and the KMeans initialization (kmeans.py) -/

/-- Smallest squared distance from `p` to the already-selected points (given
by their identities `sel` into `pts`). -/
def minDistToSel (pts : List Point) (sel : List ℕ) (p : Point) : ℚ :=
  match sel.map fun i => sqDist (pts.getD i []) p with
  | [] => 0
  | d :: ds => ds.foldl min d

/-- Identity of the stored point farthest (max-min squared distance) from the
current selection; on ties the lower identity is kept. -/
def farthestId (pts : List Point) (sel : List ℕ) : ℕ :=
  match pts.enum.map fun ip => (minDistToSel pts sel ip.2, ip.1) with
  | [] => 0
  | c :: cs => (cs.foldl (fun b x => if b.1 < x.1 then x else b) c).2

/-- The iteration of farthest-point sampling: `n` more identities appended to
the selection. -/
def spreadAux (pts : List Point) : ℕ → List ℕ → List ℕ
  | 0, sel => sel
  | n + 1, sel => spreadAux pts n (sel ++ [farthestId pts sel])

/-- Modelled from the spec: `SpreadOut(k)` / `covertreec.spreadout` — absent
from the source — returns k point identities selected by iterative
farthest-point sampling: start from the first point (identity 0), then
repeatedly add the identity maximizing the minimum distance to the selection
(spec sections 4.2 and 6: `spread_out(handle, k) -> sequence of k
identities`). -/
def spreadout (t : CTree) (k : ℕ) : List ℕ :=
  match k with
  | 0 => []
  | k' + 1 => spreadAux t.pts k' [0]

/-- `init_covertree` from `kmeans.py` lines 40-47: builds a tree truncated at
depth 3 over the points and returns `covertreec.spreadout(ptr, k)` as is. -/
def init_covertree (k : ℕ) (points : List Point) : Except PyErr (List ℕ) :=
  match ctNew points 3 with
  | .ok t => .ok (spreadout t k)
  | .error e => .error e

/-- What `kmeansc.new` receives as `initial_centres` from `set_training_data`
(`kmeans.py` lines 136-148): either a matrix of point coordinates, or — in
the `covertree` branch only — a vector of raw identities. -/
inductive CentresArg where
  | pointsM (m : List Point)
  | idsV (v : List ℕ)
  deriving DecidableEq

/-- The conversion the `kmeanspp` branch performs (`kmeans.py` lines 50-54):
`seeds = points[seed_idx]` — seed identities are turned into the seed points'
coordinates before being passed as initial centres. -/
def centresFromIds (points : List Point) (seedIdx : List ℕ) : CentresArg :=
  .pointsM (seedIdx.map fun i => points.getD i [])

/-- The `covertree` branch of `set_training_data` (`kmeans.py` lines 144-145
and 148): the value returned by `init_covertree(k, points)` is passed to
`kmeansc.new` as `initial_centres` directly, with no indexing into
`points`. -/
def covertreeCentres (k : ℕ) (points : List Point) : Except PyErr CentresArg :=
  match init_covertree k points with
  | .ok seeds => .ok (.idsV seeds)
  | .error e => .error e

/-! ## Helper lemmas about the anomaly bookkeeping -/

theorem anoms_count (flags : List Bool) (s : WarnState) :
    (flags.foldl anomStep s).count = s.count + flags.count true := by
  induction flags generalizing s with
  | nil => simp [List.count]
  | cons b bs ih =>
    cases b with
    | false => simp [List.foldl, anomStep, ih, List.count_cons]
    | true =>
      simp only [List.foldl, anomStep, ite_true, ih, List.count_cons]
      simp
      omega

theorem anoms_warnings (flags : List Bool) (s : WarnState) :
    (flags.foldl anomStep s).warnings =
      s.warnings + (min (s.count + flags.count true) INDEX_OUT_OF_BOUND_COUNT_MAX
        - min s.count INDEX_OUT_OF_BOUND_COUNT_MAX) := by
  induction flags generalizing s with
  | nil => simp [List.count]
  | cons b bs ih =>
    cases b with
    | false => simp [List.foldl, anomStep, ih, List.count_cons]
    | true =>
      simp only [List.foldl, anomStep, ite_true, ih, List.count_cons]
      simp only [INDEX_OUT_OF_BOUND_COUNT_MAX, beq_self_eq_true, if_true]
      split <;> omega

/-! ## Helper lemmas: a left fold of `min` and the head of an insertion sort
both compute the least element -/

theorem foldl_min_le_init {α : Type*} [LinearOrder α] :
    ∀ (cs : List α) (c : α), cs.foldl min c ≤ c
  | [], c => le_refl c
  | a :: as, c => le_trans (foldl_min_le_init as (min c a)) (min_le_left c a)

theorem foldl_min_le_mem {α : Type*} [LinearOrder α] :
    ∀ (cs : List α) (c x : α), x ∈ cs → cs.foldl min c ≤ x
  | [], _, x, hx => absurd hx (List.not_mem_nil x)
  | a :: as, c, x, hx => by
    simp only [List.foldl]
    rcases List.mem_cons.1 hx with h1 | h1
    · subst h1
      exact le_trans (foldl_min_le_init as (min c x)) (min_le_right c x)
    · exact foldl_min_le_mem as (min c a) x h1

theorem foldl_min_le {α : Type*} [LinearOrder α] (cs : List α) (c x : α)
    (hx : x ∈ c :: cs) : cs.foldl min c ≤ x := by
  rcases List.mem_cons.1 hx with h1 | h1
  · subst h1; exact foldl_min_le_init cs x
  · exact foldl_min_le_mem cs c x h1

theorem foldl_min_mem {α : Type*} [LinearOrder α] :
    ∀ (cs : List α) (c : α), cs.foldl min c ∈ c :: cs
  | [], c => List.mem_cons_self c []
  | a :: as, c => by
    simp only [List.foldl]
    rcases List.mem_cons.1 (foldl_min_mem as (min c a)) with h1 | h1
    · rcases min_choice c a with hm | hm
      · rw [h1, hm]; exact List.mem_cons_self _ _
      · rw [h1, hm]; exact List.mem_cons_of_mem _ (List.mem_cons_self _ _)
    · exact List.mem_cons_of_mem _ (List.mem_cons_of_mem _ h1)

theorem insertionSort_take_one {α : Type*} [LinearOrder α] (c : α) (cs : List α) :
    (List.insertionSort (fun a b => a ≤ b) (c :: cs)).take 1 = [cs.foldl min c] := by
  rcases hs : List.insertionSort (fun a b => a ≤ b) (c :: cs) with _ | ⟨h, t⟩
  · have := List.length_insertionSort (fun a b => a ≤ b) (c :: cs)
    rw [hs] at this
    simp at this
  · have hsorted : List.Sorted (fun a b : α => a ≤ b) (h :: t) := by
      rw [← hs]; exact List.sorted_insertionSort _ _
    have hmemh : h ∈ c :: cs := by
      rw [← List.mem_insertionSort (r := fun a b : α => a ≤ b), hs]
      exact List.mem_cons_self h t
    have hmemm : (cs.foldl min c) ∈ h :: t := by
      rw [← hs, List.mem_insertionSort]
      exact foldl_min_mem cs c
    have h1 : cs.foldl min c ≤ h := foldl_min_le cs c h hmemh
    have h2 : h ≤ cs.foldl min c := by
      rcases List.mem_cons.1 hmemm with hm | hm
      · rw [hm]
      · exact List.rel_of_sorted_cons hsorted _ hm
    simp [le_antisymm h1 h2]

theorem ctNew_pts5 : ctNew pts5 (-1) = .ok exTree5 := rfl

theorem candidates_ne_nil {pts : List Point} (h : pts ≠ []) (q : Point) :
    candidates pts q ≠ [] := by
  intro hc
  have := congrArg List.length hc
  simp [candidates] at this
  exact h this

theorem mem_candidates_iff {pts : List Point} {q : Point} {r : ℚ ×ₗ ℕ} :
    r ∈ candidates pts q ↔ ∃ p, pts[(ofLex r).2]? = some p ∧ (ofLex r).1 = sqDist p q := by
  constructor
  · intro hr
    rcases List.mem_map.1 hr with ⟨ip, hip, hmk⟩
    rcases ip with ⟨i, p⟩
    have hg : pts[i]? = some p := (List.mk_mem_enum_iff_getElem?).1 hip
    refine ⟨p, ?_, ?_⟩
    · rw [← hmk]; simpa using hg
    · rw [← hmk]; simp
  · rintro ⟨p, hg, hd⟩
    refine List.mem_map.2 ⟨((ofLex r).2, p), (List.mk_mem_enum_iff_getElem?).2 hg, ?_⟩
    have : r = toLex ((ofLex r).1, (ofLex r).2) := rfl
    rw [this, hd]
    simp

theorem nearestQ_isTrueNearest (t : CTree) (q : Point) (h : t.pts ≠ []) :
    IsTrueNearest t.pts q (nearestQ t q) := by
  rcases hc : candidates t.pts q with _ | ⟨c, cs⟩
  · exact absurd hc (candidates_ne_nil h q)
  · have hres : nearestQ t q = cs.foldl min c := by
      simp only [nearestQ, hc]
    constructor
    · refine mem_candidates_iff.1 ?_
      rw [hres, hc]
      exact foldl_min_mem cs c
    · intro j p hg
      have hmem : toLex (sqDist p q, j) ∈ candidates t.pts q := by
        refine mem_candidates_iff.2 ⟨p, ?_, ?_⟩ <;> simp [hg]
      have hle : nearestQ t q ≤ toLex (sqDist p q, j) := by
        rw [hres]
        exact foldl_min_le cs c _ (hc ▸ hmem)
      simpa using Prod.Lex.monotone_fst _ _ hle

/-- Evaluation of the example: the nearest stored point to the query `[0.9]`
over `pts5` is the point at coordinate 1 (identity 1, squared distance
`1/100`). -/
theorem nearestQ_exTree5 : nearestQ exTree5 [(9 : ℚ)/10] = toLex (1/100, 1) := by
  have h : candidates exTree5.pts [(9 : ℚ)/10] =
      [toLex (81/100, 0), toLex (1/100, 1), toLex (121/100, 2), toLex (441/100, 3),
        toLex (982081/100, 4)] := by
    simp [candidates, exTree5, pts5, List.enum, List.enumFrom, sqDist]
    norm_num
  simp only [nearestQ, h, List.foldl]
  norm_num [min_def, Prod.Lex.le_iff]

/-- C3: In exact mode (truncation = -1), the nearest-neighbour query returns
the true nearest point: no stored point is closer than the returned one, and
in particular, for a tree built over the 5 one-dimensional points at
coordinates 0, 1, 2, 3, 100, querying `nearest([0.9])` returns the identity of
the point at coordinate 1. -/
theorem C3_exact_nearest :
    (∀ (t : CTree) (q : Point), t.trunc = -1 → t.pts ≠ [] →
        IsTrueNearest t.pts q (nearestQ t q)) ∧
    (ofLex (nearestQ exTree5 [(9 : ℚ)/10])).2 = 1 := by
  constructor
  · intro t q _ h
    exact nearestQ_isTrueNearest t q h
  · rw [nearestQ_exTree5]
    rfl

/-- Witness for C3: applied to the concrete 5-point exact-mode tree and the
query `[0.9]`. -/
theorem C3_exact_nearest_witness :
    IsTrueNearest pts5 [(9 : ℚ)/10] (nearestQ exTree5 [(9 : ℚ)/10]) :=
  C3_exact_nearest.1 exTree5 [(9 : ℚ)/10] rfl (by simp [exTree5, pts5])

/-- C5: For every query point q against a built (hence nonempty) tree,
`k_nearest(q, 1)` returns the same identity and distance as `nearest(q)`: the
single-best query and the k-best machinery agree on the best neighbour. -/
theorem C5_k1_equiv_nearest (t : CTree) (q : Point) (h : t.pts ≠ []) :
    kNearestQ t q 1 = [nearestQ t q] := by
  rcases hc : candidates t.pts q with _ | ⟨c, cs⟩
  · exact absurd hc (candidates_ne_nil h q)
  · simp only [kNearestQ, nearestQ, hc, insertionSort_take_one]

/-- Witness for C5: at the concrete 5-point tree and the query `[0.9]`. -/
theorem C5_k1_equiv_nearest_witness :
    kNearestQ exTree5 [(9 : ℚ)/10] 1 = [nearestQ exTree5 [(9 : ℚ)/10]] :=
  C5_k1_equiv_nearest exTree5 [(9 : ℚ)/10] (by simp [exTree5, pts5])

/-! ## Round-trip of the serializer -/

theorem parseForest_serForest :
    ∀ (fuel : ℕ) (cs : List CNode) (rest : List Tok), sizeC cs ≤ fuel →
      parseForest fuel cs.length (serForest cs ++ rest) = some (cs, rest) := by
  intro fuel
  induction fuel with
  | zero =>
    intro cs rest h
    cases cs with
    | nil => simp [serForest, parseForest]
    | cons c cs' =>
      cases c with
      | mk p l cc => simp [sizeC] at h
  | succ f ih =>
    intro cs rest h
    cases cs with
    | nil => simp [serForest, parseForest]
    | cons c cs' =>
      cases c with
      | mk p l cc =>
        simp only [sizeC] at h
        have hcc : sizeC cc ≤ f := by omega
        have hcs : sizeC cs' ≤ f := by omega
        simp only [serForest, List.length_cons, parseForest, List.append_eq, List.append_assoc]
        simp only [ih cc (serForest cs' ++ rest) hcc, ih cs' rest hcs]

theorem parseRats_coords (p : List ℚ) (rest : List Tok) :
    parseRats p.length (p.map Tok.tq ++ rest) = some (p, rest) := by
  induction p with
  | nil => simp [parseRats]
  | cons a as ih => simp [parseRats, ih]

theorem parsePoint_serPoint (p : Point) (rest : List Tok) :
    parsePoint (serPoint p ++ rest) = some (p, rest) := by
  simp [serPoint, parsePoint, parseRats_coords]

theorem parsePts_serPoints (ps : List Point) (rest : List Tok) :
    parsePts ps.length (ps.flatMap serPoint ++ rest) = some (ps, rest) := by
  induction ps with
  | nil => simp [parsePts]
  | cons p ps' ih =>
    simp only [List.flatMap_cons, List.length_cons, parsePts, List.append_assoc]
    simp only [parsePoint_serPoint, ih]

theorem deserialize_serialize (t : CTree) : deserialize (serialize t) = some t := by
  simp only [serialize, deserialize]
  simp only [parsePts_serPoints]
  have h1 : sizeC [t.root] ≤ sizeC [t.root] := le_refl _
  have h2 := parseForest_serForest (sizeC [t.root]) [t.root] [] h1
  simp only [List.length_cons, List.length_nil, List.append_nil] at h2
  simp only [h2]

/-- C2: For every cover tree T (in exactness mode, truncation = -1), the tree
obtained by `deserialize(serialize(T))` (the operations wrapped by
`get_params` / `set_params`) exists and answers `nearest` and `k_nearest`
identically to T on every query. -/
theorem C2_roundtrip (t : CTree) (_htr : t.trunc = -1) :
    ∃ t', deserialize (serialize t) = some t' ∧
      (∀ q : Point, nearestQ t' q = nearestQ t q) ∧
      (∀ (q : Point) (k : ℕ), kNearestQ t' q k = kNearestQ t q k) :=
  ⟨t, deserialize_serialize t, fun _ => rfl, fun _ _ => rfl⟩

/-- Witness for C2: the concrete 5-point exact-mode tree round-trips and
answers queries identically. -/
theorem C2_roundtrip_witness :
    ∃ t', deserialize (serialize exTree5) = some t' ∧
      (∀ q : Point, nearestQ t' q = nearestQ exTree5 q) ∧
      (∀ (q : Point) (k : ℕ), kNearestQ t' q k = kNearestQ exTree5 q k) :=
  C2_roundtrip exTree5 rfl

/-! ## C1: the out-of-range fallback of `produce` -/

/-- C1 counterexample: in the k > 1 case, a result row whose identities are
all out of range (`N = 2`, row `[5, 7]`) produces the empty label list — the
out-of-range identities are dropped, not replaced by identity 0 as the claim
states (which would give `[0, 0]`). -/
theorem C1_counterexample :
    to_labels 2 [5, 7] = [] ∧ to_labels 2 [5, 7] ≠ [0, 0] := by
  decide

/-- C1 amended: every identity `produce` outputs is a valid training-point
index: in the k = 1 case an out-of-range identity is replaced by 0 (in range
whenever there is at least one training point), and in the k > 1 case an
out-of-range identity is replaced by the first in-range identity of its row,
or dropped when the row has none — so the output row only ever holds in-range
identities. -/
theorem C1_labels_in_range (N : ℕ) (i : ℕ) (row : List ℕ) (h : 0 < N) :
    to_label N i < N ∧ ∀ x ∈ to_labels N row, x < N := by
  constructor
  · simp only [to_label]
    split
    · assumption
    · exact h
  · intro x hx
    simp only [to_labels, List.mem_flatMap] at hx
    rcases hx with ⟨i', _, hx⟩
    split at hx
    · rcases List.mem_singleton.1 hx with rfl
      assumption
    · rcases hf : row.find? (fun j => decide (j < N)) with _ | j
      · rw [hf] at hx
        exact absurd hx (List.not_mem_nil x)
      · rw [hf] at hx
        rcases List.mem_singleton.1 hx with rfl
        simpa using List.find?_some hf

/-- Witness for C1: with 2 training points, k = 1 result `5` maps into range
and the row `[5, 1, 7]` maps to in-range identities only. -/
theorem C1_labels_in_range_witness :
    0 < 2 ∧ (to_label 2 5 < 2 ∧ ∀ x ∈ to_labels 2 [5, 1, 7], x < 2) :=
  ⟨by decide, C1_labels_in_range 2 5 [5, 1, 7] (by decide)⟩

/-! ## C4: anomaly counter and warning cap -/

/-- C4 counterexample: a batch with exactly 3 out-of-range identities: all 3
anomalies receive individual warnings, so 0 are suppressed, yet the summary
warning is logged and reports 1 (`1 + count - MAX`), not the number of
suppressed anomalies. -/
theorem C4_counterexample :
    (runAnoms [true, true, true]).count = 3 ∧
    (runAnoms [true, true, true]).warnings = 3 ∧
    summaryWarn (runAnoms [true, true, true]).count = some 1 ∧
    some 1 ≠ some ((runAnoms [true, true, true]).count - INDEX_OUT_OF_BOUND_COUNT_MAX) := by
  decide

/-- C4 amended: within a single `produce` call the counter starts at 0 and
ends equal to the number of out-of-range identities processed; an individual
warning is logged exactly for the first 3 anomalies (`min count 3`); and the
summary warning is logged if and only if the counter reached the maximum,
reporting `1 + count - MAX` — one more than the number of anomalies that
received no individual warning. -/
theorem C4_anomaly_accounting (flags : List Bool) :
    (runAnoms flags).count = flags.count true ∧
    (runAnoms flags).warnings = min (flags.count true) INDEX_OUT_OF_BOUND_COUNT_MAX ∧
    summaryWarn (runAnoms flags).count =
      (if INDEX_OUT_OF_BOUND_COUNT_MAX ≤ flags.count true then
        some (1 + flags.count true - INDEX_OUT_OF_BOUND_COUNT_MAX)
      else none) := by
  have hc : (runAnoms flags).count = flags.count true := by
    simpa [runAnoms] using anoms_count flags ⟨0, 0⟩
  refine ⟨hc, ?_, ?_⟩
  · have hw := anoms_warnings flags ⟨0, 0⟩
    simpa [runAnoms, INDEX_OUT_OF_BOUND_COUNT_MAX] using hw
  · rw [hc, summaryWarn]

/-! ## C7, C8, C10: the fit/produce lifecycle -/

/-- C7: construction is atomic on failure: whenever `fit` raises (missing
training data, or a build failure such as an empty point set), the instance
state is returned unchanged — in particular a `None` tree handle stays `None`
and a `False` fitted flag stays `False`, so the caller holds either a valid
handle or no handle. -/
theorem C7_fit_atomic (s : CTState) (e : PyErr) (h : (fitM s).2 = .error e) :
    (fitM s).1 = s := by
  by_cases hf : s.fitted
  · simp [fitM, hf] at h
  · rcases htr : s.training with _ | tr
    · simp [fitM, hf, htr]
    · rcases hn : ctNew tr s.trunc with e' | t
      · simp [fitM, hf, htr, hn]
      · simp [fitM, hf, htr, hn] at h

/-- Witness for C7: a fresh instance with no training data supplied: `fit`
raises `ValueError('Missing training data.')` and the state — handle `None`,
fitted `False` — is unchanged. -/
theorem C7_fit_atomic_witness :
    (fitM (initState (-1) 3)).2 = .error (.valueError "Missing training data.") ∧
    (fitM (initState (-1) 3)).1 = initState (-1) 3 :=
  ⟨rfl, C7_fit_atomic (initState (-1) 3) (.valueError "Missing training data.") rfl⟩

/-- C8: `fit` is idempotent on a fitted instance: when the fitted flag is
set, `fit` returns immediately on the bare-`return` path, rebuilding nothing
and leaving the tree handle and every other field unchanged. -/
theorem C8_fit_idempotent (s : CTState) (h : s.fitted = true) :
    fitM s = (s, .ok false) := by
  simp [fitM, h]

/-- Witness for C8: the concrete fitted instance over the 5-point set. -/
theorem C8_fit_idempotent_witness :
    exFitted.fitted = true ∧ fitM exFitted = (exFitted, .ok false) :=
  ⟨rfl, C8_fit_idempotent exFitted rfl⟩

/-- In every reachable instance state, a missing tree handle implies the
anomaly counter is 0: the counter only becomes positive inside a `produce`
call that had a handle, and no method clears the handle afterwards. -/
theorem reachable_counter_zero {s : CTState} (h : Reachable s) :
    s.this = none → s.counter = 0 := by
  induction h with
  | init trunc k => intro _; rfl
  | setTraining inputs _ ih => simpa [setTrainingData] using ih
  | fit _ ih =>
    rename_i s _
    by_cases hf : s.fitted
    · simpa [fitM, hf] using ih
    · rcases htr : s.training with _ | tr
      · simpa [fitM, hf, htr] using ih
      · rcases hn : ctNew tr s.trunc with e | t
        · simpa [fitM, hf, htr, hn] using ih
        · intro hth
          simp [fitM, hf, htr, hn] at hth
  | produce inputs _ ih =>
    rename_i s _
    rcases hth : s.this with _ | t
    · intro _
      simp [produceM, hth]
    · rcases htr : s.training with _ | tr
      · intro _
        simp [produceM, hth, htr]
      · by_cases hk : s.k = 1
        · intro hh
          simp [produceM, hth, htr, hk] at hh
        · intro hh
          simp [produceM, hth, htr, hk] at hh
  | setParams buf _ ih =>
    rename_i s _
    rcases hd : deserialize buf with _ | t
    · simpa [setParamsM, hd] using ih
    · intro hh
      simp [setParamsM, hd] at hh

/-- C10: on every reachable instance whose tree handle is `None`, `produce`
raises `ValueError('Fit model first')` and the instance state is unchanged by
the failed call (the counter reset of line 154 writes the 0 the counter
already held). -/
theorem C10_produce_unfitted (s : CTState) (inputs : List Point)
    (hr : Reachable s) (h : s.this = none) :
    produceM s inputs = (s, .error (.valueError "Fit model first")) := by
  have hc : s.counter = 0 := reachable_counter_zero hr h
  cases s with
  | mk th tr k trn f c =>
    obtain rfl : th = none := h
    obtain rfl : c = 0 := hc
    rfl

/-- Witness for C10: a fresh instance, which is reachable and has no handle. -/
theorem C10_produce_unfitted_witness :
    (initState (-1) 3).this = none ∧
    produceM (initState (-1) 3) [[0]] =
      (initState (-1) 3, .error (.valueError "Fit model first")) :=
  ⟨rfl, C10_produce_unfitted (initState (-1) 3) [[0]] (Reachable.init (-1) 3) rfl⟩

/-! ## C9: `get_call_metadata` -/

/-- C9: `get_call_metadata` reads the attribute `fitted`, which is never
assigned on a `CoverTree` or a `KMeans` instance (the stored flag is named
`_fitted`), so on every instance the call raises `AttributeError` instead of
returning the documented True/False fitting status. -/
theorem C9_get_call_metadata_raises :
    get_call_metadata coverTreeAttrs = .error .attributeError ∧
    get_call_metadata kmeansAttrs = .error .attributeError ∧
    "fitted" ∉ coverTreeAttrs ∧ "_fitted" ∈ coverTreeAttrs ∧
    "fitted" ∉ kmeansAttrs ∧ "_fitted" ∈ kmeansAttrs := by
  refine ⟨?_, ?_, ?_, ?_, ?_, ?_⟩ <;>
    simp [get_call_metadata, getAttr, coverTreeAttrs, kmeansAttrs]

/-! ## C6: `spreadout` seeds as cluster centres -/

/-- C6: evaluating the code at the failing input: over the two
one-dimensional points 5 and 9 with k = 2, farthest-point sampling selects
the identities `[0, 1]`; the `covertree` initialization branch passes this
raw identity vector itself to `kmeansc.new` as `initial_centres`, which is
not the selected points' coordinate matrix `[[5], [9]]` that the sibling
branches' conversion (`points[seed_idx]`) supplies as centroids. -/
theorem C6_spreadout_ids_passed_as_centres :
    init_covertree 2 [[5], [9]] = .ok [0, 1] ∧
    covertreeCentres 2 [[5], [9]] = .ok (.idsV [0, 1]) ∧
    centresFromIds [[5], [9]] [0, 1] = .pointsM [[5], [9]] ∧
    CentresArg.idsV [0, 1] ≠ CentresArg.pointsM [[5], [9]] := by
  have hn : ctNew [[5], [9]] 3 =
      .ok ⟨[[5], [9]], .mk 0 0 [.mk 1 (-1) []], 3⟩ := rfl
  have hsp : spreadout ⟨[[5], [9]], .mk 0 0 [.mk 1 (-1) []], 3⟩ 2 = [0, 1] := by
    simp only [spreadout, spreadAux, farthestId, minDistToSel, List.enum, List.enumFrom,
      List.map, List.foldl, sqDist, List.zipWith, List.sum_cons, List.sum_nil, List.getD,
      List.get?, List.nil_append, List.cons_append, List.append_nil]
    norm_num
  refine ⟨?_, ?_, ?_, fun h => CentresArg.noConfusion h⟩
  · simp only [init_covertree, hn, hsp]
  · simp only [covertreeCentres, init_covertree, hn, hsp]
  · rfl

end Fastlvm
